import Mathlib

/-!
Verification of the degree-day weighting and anomaly/trend engine of the
weather-dd-tracker repository.

Shallow embedding conventions:
- Python floats are modelled as exact rationals (ℚ) except where a
  computation involves the Gaussian kernel, which is modelled over ℝ.
- A pandas missing value (NaN / NA) is modelled as `Option.none`.
- Python's `round(x, k)` (round-half-to-even on the k-th decimal) is
  modelled by `roundHalfEven` scaled by 10^k.
-/

namespace WeatherDD

/-- Base comfort temperature in Fahrenheit, from compute_tdd.py (BASE_TEMP_F = 65). -/
def BASE_TEMP_F : ℚ := 65

/-- Heating degree days, from compute_tdd.py: tdd(temp_f) = max(BASE_TEMP_F - temp_f, 0). -/
def tdd (temp_f : ℚ) : ℚ := max (BASE_TEMP_F - temp_f) 0

/-- Cooling degree days, from compare_to_normal.py line 41:
forecast_cdd = max(t - 65, 0). -/
def forecast_cdd (t : ℚ) : ℚ := max (t - 65) 0

/-- Round a rational to the nearest integer, ties to even — the semantics of
Python's builtin round on exact values. -/
def roundHalfEven (x : ℚ) : ℤ :=
  let f := ⌊x⌋
  let r := x - (f : ℚ)
  if r < 1/2 then f
  else if 1/2 < r then f + 1
  else if f % 2 = 0 then f else f + 1

/-- Python round(x, 2) on exact rationals. -/
def roundTo2 (x : ℚ) : ℚ := (roundHalfEven (x * 100) : ℚ) / 100

/-- Python round(x, 1) on exact rationals. -/
def roundTo1 (x : ℚ) : ℚ := (roundHalfEven (x * 10) : ℚ) / 10

/-!
CompositeScorer, from src/scripts/market_logic/composite_score.py,
compute_composite, per-row logic (lines 100-145). Inputs per date row:
master_tdd, power-burn proxy pb_val, wind anomaly wind_anom, volatility
vol_score. Missing (NaN) power-burn / wind / volatility values are replaced
by 0 before these functions per the isna guards in the source.
-/

/-- Accumulated bull signal, from compute_composite lines 102-124: cold
regime above 25, hot regime above 12, power-burn contribution above 10, wind
dropout premium below -1.0 and wind penalty above 1.5. -/
def bull_signal (master_tdd pb_val wind_anom : ℚ) : ℚ :=
  let b0 : ℚ := 0.0
  let b1 := if master_tdd > 25 then b0 + (master_tdd - 25) * 0.05
            else if master_tdd > 12 then b0 + (master_tdd - 12) * 0.08
            else b0
  let b2 := if pb_val > 10 then b1 + (pb_val - 10) * 0.1 else b1
  let b3 := if wind_anom < -1.0 then b2 + |wind_anom| * 0.15
            else if wind_anom > 1.5 then b2 - |wind_anom| * 0.10
            else b2
  b3

/-- Confidence multiplier, from compute_composite line 117:
max(0.2, 1.0 - vol_score / 100.0). -/
def confidence_multiplier (vol_score : ℚ) : ℚ := max 0.2 (1.0 - vol_score / 100.0)

/-- Final score, from compute_composite lines 126-129: bull signal times
confidence multiplier, clamped to [-1, 1]. -/
def final_score (master_tdd pb_val wind_anom vol_score : ℚ) : ℚ :=
  max (-1.0) (min 1.0 (bull_signal master_tdd pb_val wind_anom * confidence_multiplier vol_score))

/-- Emitted composite_score column, from compute_composite line 143:
round(final_score, 2). -/
def composite_score (master_tdd pb_val wind_anom vol_score : ℚ) : ℚ :=
  roundTo2 (final_score master_tdd pb_val wind_anom vol_score)

/-!
RunStore merge, from src/scripts/merge_tdd.py. A row of the master table
carries the CSV columns date, mean_temp, tdd, mean_temp_gw, tdd_gw plus the
model label and run_id. load_all concatenates all per-run CSVs and runs
pandas drop_duplicates(subset=["model", "run_id", "date"]), whose default
keep="first" retains the first-seen row of each key; main then sorts by
(model, run_id, date).
-/

/-- One row of the merged master table (DailyRecord of the spec). -/
structure DailyRecord where
  date : String
  model : String
  run_id : String
  mean_temp : ℚ
  tddVal : ℚ
  mean_temp_gw : ℚ
  tdd_gw : ℚ
deriving DecidableEq

/-- Identity key of a DailyRecord: the drop_duplicates subset
["model", "run_id", "date"] of merge_tdd.py line 36. -/
def recKey (r : DailyRecord) : String × String × String := (r.model, r.run_id, r.date)

/-- Embedding of pandas drop_duplicates(subset=key) with the default
keep="first": keep each row whose key has not appeared earlier. -/
def drop_duplicates_key : List DailyRecord → List DailyRecord
  | [] => []
  | r :: rs =>
      r :: drop_duplicates_key (rs.filter (fun s => recKey s ≠ recKey r))
termination_by l => l.length
decreasing_by
  simp only [List.length_cons]
  exact Nat.lt_succ_of_le (List.length_filter_le _ _)

/-- Lexicographic comparator for sort_values(["model", "run_id", "date"]) in
merge_tdd.py line 46. -/
def recLe (a b : DailyRecord) : Bool :=
  a.model < b.model ||
    (a.model = b.model &&
      (a.run_id < b.run_id || (a.run_id = b.run_id && a.date ≤ b.date)))

/-- Sorted, deduplicated master output of merge_tdd.py main. -/
def merge_output (l : List DailyRecord) : List DailyRecord :=
  (drop_duplicates_key l).mergeSort recLe

/-- Row kept at a duplicated key in the counterexample: first-seen version. -/
def rowA : DailyRecord :=
  { date := "2025-12-01", model := "GFS", run_id := "20251201_00",
    mean_temp := 40.0, tddVal := 25.0, mean_temp_gw := 39.0, tdd_gw := 26.0 }

/-- Later row with the same identity key but different values. -/
def rowB : DailyRecord :=
  { date := "2025-12-01", model := "GFS", run_id := "20251201_00",
    mean_temp := 41.0, tddVal := 24.0, mean_temp_gw := 38.0, tdd_gw := 27.0 }

/-!
Storage rounding, from src/scripts/compute_tdd.py. process_ecmwf (lines
140-146) and process_gfs (lines 195-201) build each stored row with
round(value, 2) on the mean temperature, tdd, gas-weighted mean temperature
and gas-weighted tdd.
-/

/-- Numeric columns of one stored per-run CSV row (date/model/run added later). -/
structure StoredTddRow where
  mean_temp : ℚ
  tddVal : ℚ
  mean_temp_gw : ℚ
  tdd_gw : ℚ
deriving DecidableEq

/-- Row built by process_ecmwf, compute_tdd.py lines 140-146. -/
def stored_row_ecmwf (temp_f_simple temp_f_gw : ℚ) : StoredTddRow :=
  { mean_temp := roundTo2 temp_f_simple,
    tddVal := roundTo2 (tdd temp_f_simple),
    mean_temp_gw := roundTo2 temp_f_gw,
    tdd_gw := roundTo2 (tdd temp_f_gw) }

/-- Row built by process_gfs, compute_tdd.py lines 195-201. -/
def stored_row_gfs (temp_f_simple temp_f_gw : ℚ) : StoredTddRow :=
  { mean_temp := roundTo2 temp_f_simple,
    tddVal := roundTo2 (tdd temp_f_simple),
    mean_temp_gw := roundTo2 temp_f_gw,
    tdd_gw := roundTo2 (tdd temp_f_gw) }

/-!
Streak/trend report, from src/scripts/send_telegram.py, _trend (lines
25-40). Input: the per-run summary values fa_gw of one model, sorted by
run_id; deltas are consecutive differences.
-/

/-- Revision direction label, from _trend line 31:
"bullish" if latest > 0 else "bearish". -/
def revision_direction (latest : ℚ) : String :=
  if latest > 0 then "bullish" else "bearish"

/-- Ordinal label, from _trend line 38: {1:"1st",2:"2nd",3:"3rd"} fallback "nth". -/
def ordinal_label (n : ℕ) : String :=
  if n = 1 then "1st" else if n = 2 then "2nd" else if n = 3 then "3rd"
  else toString n ++ "th"

/-- Count of immediately preceding deltas whose sign class (d > 0) matches
that of the latest delta, from _trend lines 33-37; the input list is
deltas[:-1] reversed. -/
def streak_count (latest : ℚ) : List ℚ → ℕ
  | [] => 0
  | d :: ds =>
      if decide (d > 0) = decide (latest > 0) then 1 + streak_count latest ds
      else 0

/-- Consecutive run-to-run deltas of the per-run values, _trend line 29. -/
def run_deltas (vals : List ℚ) : List ℚ :=
  List.zipWith (fun a b => b - a) vals vals.tail

/-- Latest delta (deltas[-1]); the default 0 is never reached when the model
has at least two runs. -/
def lastDelta (vals : List ℚ) : ℚ := (run_deltas vals).getLast?.getD 0

/-- Full trend message of _trend: "first run" for fewer than two runs, else
ordinal + direction + capped arrow streak. -/
def trendMsg (vals : List ℚ) : String :=
  if vals.length < 2 then "first run"
  else
    let deltas := run_deltas vals
    let latest := deltas.getLast?.getD 0
    let count := 1 + streak_count latest deltas.dropLast.reverse
    let arrows := String.join (List.replicate (min count 5)
      (if latest > 0 then "↑" else "↓"))
    ordinal_label count ++ " consecutive " ++ revision_direction latest ++
      " revision " ++ arrows

/-!
RunDeltaTracker, from src/scripts/compute_run_delta.py, compute_delta
(lines 31-61). Per model: run identifiers are the sorted distinct run_id
values (sorted(unique(...)) in the source; order before sorting is
irrelevant, so Mathlib dedup composed with insertionSort models it); the
last two in ascending order are latest and previous; the day-aligned delta
inner-joins latest and previous on date. Dates are unique within one run of
the deduplicated master, so the pandas inner merge is the per-left-row
first-match join used here.
-/

/-- One output row of run_delta.csv: date, tdd of the latest run, tdd of
the previous run, and their difference. -/
structure DeltaRow where
  date : String
  tdd_latest : ℚ
  tdd_prev : ℚ
  tdd_change : ℚ
deriving DecidableEq

/-- Rows of one model, compute_delta line 32. -/
def model_rows (df : List DailyRecord) (model : String) : List DailyRecord :=
  df.filter (fun r => r.model = model)

/-- Distinct run identifiers of one model (pandas unique). -/
def model_run_ids (df : List DailyRecord) (model : String) : List String :=
  ((model_rows df model).map (fun r => r.run_id)).dedup

/-- Ascending sorted distinct run identifiers, compute_delta line 33. -/
def sorted_runs (df : List DailyRecord) (model : String) : List String :=
  (model_run_ids df model).insertionSort (fun a b => a ≤ b)

/-- Rows of one run of one model. -/
def run_rows (df : List DailyRecord) (model rid : String) : List DailyRecord :=
  (model_rows df model).filter (fun r => r.run_id = rid)

/-- Inner join of latest-run rows with previous-run rows on date, with
tdd_change = tdd_latest - tdd_prev, compute_delta lines 51-52. -/
def delta_rows (latestRows prevRows : List DailyRecord) : List DeltaRow :=
  latestRows.filterMap (fun r =>
    (prevRows.find? (fun p => p.date = r.date)).map
      (fun p => ⟨r.date, r.tddVal, p.tddVal, r.tddVal - p.tddVal⟩))

/-- Per-model delta of compute_delta: none when the model has fewer than two
runs (lines 35-37), else the join of the two greatest run ids (lines 39-52). -/
def compute_delta_model (df : List DailyRecord) (model : String) :
    Option (String × String × List DeltaRow) :=
  match (sorted_runs df model).reverse with
  | latest :: prev :: _ =>
      some (latest, prev,
        delta_rows (run_rows df model latest) (run_rows df model prev))
  | _ => none

/-- First run of model X in the delta witness: tdd 10 on 2026-01-01. -/
def drX : DailyRecord :=
  { date := "2026-01-01", model := "X", run_id := "r1",
    mean_temp := 50, tddVal := 10, mean_temp_gw := 50, tdd_gw := 10 }

/-- Second run of model X in the delta witness: tdd 12 on the same date. -/
def drY : DailyRecord :=
  { date := "2026-01-01", model := "X", run_id := "r2",
    mean_temp := 48, tddVal := 12, mean_temp_gw := 48, tdd_gw := 12 }

/-!
CrossModelDisagreement, from
src/scripts/market_logic/physics_vs_ai_disagreement.py, compute_disagreement
(lines 106-134). The loaded tidy data is pivoted per (date, model), taking
the last value (aggfunc="last"); family means are row means over the family
columns present, skipping missing cells (NaN when every family cell of a
date is missing); the disagreement and volatility columns are only computed
when BOTH families have at least one model column, else they are set to the
constant 0.0.
-/

/-- One tidy row of the concatenated latest-run model data. -/
structure ModelTdd where
  date : String
  model : String
  tddVal : ℚ
deriving DecidableEq

/-- Physics family membership list, compute_disagreement line 111. -/
def PHYSICS_MODELS : List String := ["ECMWF_HRES", "GFS_HRES", "NAM", "ICON"]

/-- AI family membership list, compute_disagreement line 112. -/
def AI_MODELS : List String := ["AIFS", "GRAPHCAST", "PANGUWEATHER"]

/-- Pivot cell (date, model) with aggfunc="last": the last loaded value, or
none when that model reported nothing for that date. -/
def pivot_val (rows : List ModelTdd) (d m : String) : Option ℚ :=
  ((rows.filter (fun r => r.date = d ∧ r.model = m)).getLast?).map
    (fun r => r.tddVal)

/-- Model columns of the pivot table: the distinct models present. -/
def pivot_cols (rows : List ModelTdd) : List String :=
  (rows.map (fun r => r.model)).dedup

/-- Physics columns present in the data. -/
def physics_cols (rows : List ModelTdd) : List String :=
  (pivot_cols rows).filter (fun c => c ∈ PHYSICS_MODELS)

/-- AI columns present in the data. -/
def ai_cols (rows : List ModelTdd) : List String :=
  (pivot_cols rows).filter (fun c => c ∈ AI_MODELS)

/-- Row mean over a family's columns, skipping missing cells (pandas
mean(axis=1) with skipna): NaN (none) when no family cell has a value. -/
def family_mean (rows : List ModelTdd) (fam : List String) (d : String) :
    Option ℚ :=
  let vs := fam.filterMap (fun m => pivot_val rows d m)
  if vs.length = 0 then none else some (vs.sum / vs.length)

/-- physics_mean column, compute_disagreement lines 115-118. -/
def physics_mean (rows : List ModelTdd) (d : String) : Option ℚ :=
  if physics_cols rows ≠ [] then family_mean rows (physics_cols rows) d
  else none

/-- ai_mean column, compute_disagreement lines 120-123. -/
def ai_mean (rows : List ModelTdd) (d : String) : Option ℚ :=
  if ai_cols rows ≠ [] then family_mean rows (ai_cols rows) d
  else none

/-- disagreement_abs column, compute_disagreement lines 126-133:
|ai_mean − physics_mean| (missing when either mean is missing) when both
families have model columns, else the constant 0.0. -/
def disagreement_abs (rows : List ModelTdd) (d : String) : Option ℚ :=
  if physics_cols rows ≠ [] ∧ ai_cols rows ≠ [] then
    (ai_mean rows d).bind (fun a => (physics_mean rows d).map (fun p => |a - p|))
  else some 0

/-- volatility_risk_score column, compute_disagreement lines 129-134:
clip(disagreement/5*100, max 100) rounded to one decimal, with the same
both-families guard. -/
def volatility_risk_score (rows : List ModelTdd) (d : String) : Option ℚ :=
  if physics_cols rows ≠ [] ∧ ai_cols rows ≠ [] then
    (disagreement_abs rows d).map (fun x => roundTo1 (min (x / 5.0 * 100) 100))
  else some 0

/-- Volatility value used per row by the composite scorer
(compute_composite lines 115-116): a missing value is replaced by 0. -/
def composite_vol_input (v : Option ℚ) : ℚ := v.getD 0

/-- Dataset refuting C7 as stated: both families present overall, but the
AI family reports nothing for 2026-01-02. -/
def exRows : List ModelTdd :=
  [⟨"2026-01-01", "ECMWF_HRES", 10⟩,
   ⟨"2026-01-02", "ECMWF_HRES", 12⟩,
   ⟨"2026-01-01", "AIFS", 11⟩]

/-- Physics-only dataset for the empty-family branch of the C7 witness. -/
def exRowsPhys : List ModelTdd := [⟨"2026-01-01", "ECMWF_HRES", 10⟩]

/-!
WeightGridBuilder, from src/scripts/build_gas_weights.py. The grid covers
latitudes 25.0..50.0 and longitudes 235.0..295.0 (0-360 convention) at 0.25
degree resolution: 101 × 241 cells. Each anchor (state) contributes
weight × exp(−Δlat²/(2σlat²) − Δlon²/(2σlon²)) with weight =
eia_bcf × hdd30yr; the accumulated grid is divided by its total sum.
The float division 0.0/0.0 that numpy performs on an all-zero grid yields
NaN; a grid cell is modelled as none exactly when the normalizing total is
zero, and as some of the real quotient otherwise.
-/

/-- One state anchor row of STATE_DATA:
(id, centroid_lat, centroid_lon_360, eia_res_comm_bcf, hdd_30yr). -/
structure Anchor where
  sid : String
  lat : ℚ
  lon : ℚ
  eia_bcf : ℚ
  hdd30yr : ℚ
deriving DecidableEq

/-- STATE_DATA table of build_gas_weights.py lines 39-96. -/
def STATE_DATA : List Anchor :=
  [⟨"ME", 45.3, 289.0, 65, 7500⟩, ⟨"NH", 43.7, 288.2, 50, 7300⟩,
   ⟨"VT", 44.0, 287.7, 30, 8000⟩, ⟨"MA", 42.4, 288.7, 210, 5800⟩,
   ⟨"RI", 41.7, 288.5, 50, 5700⟩, ⟨"CT", 41.6, 287.5, 110, 5500⟩,
   ⟨"NY", 42.9, 284.5, 435, 5800⟩, ⟨"NJ", 40.2, 285.7, 245, 5000⟩,
   ⟨"PA", 41.2, 282.2, 330, 5600⟩, ⟨"DE", 38.9, 284.5, 40, 4500⟩,
   ⟨"MD", 39.0, 283.2, 130, 4200⟩, ⟨"VA", 37.8, 281.5, 165, 3900⟩,
   ⟨"WV", 38.6, 279.5, 70, 5000⟩, ⟨"KY", 37.4, 277.5, 115, 4400⟩,
   ⟨"NC", 35.8, 280.8, 130, 3400⟩, ⟨"SC", 33.8, 279.2, 70, 2500⟩,
   ⟨"GA", 32.7, 276.1, 110, 2600⟩, ⟨"TN", 35.8, 273.5, 130, 4000⟩,
   ⟨"AL", 32.8, 273.5, 80, 2700⟩, ⟨"MS", 32.7, 270.2, 55, 2500⟩,
   ⟨"FL", 28.5, 278.6, 80, 600⟩, ⟨"OH", 40.4, 277.5, 290, 5500⟩,
   ⟨"MI", 44.3, 275.5, 325, 6800⟩, ⟨"IN", 40.3, 274.4, 175, 5600⟩,
   ⟨"IL", 40.6, 272.0, 345, 6100⟩, ⟨"WI", 44.5, 270.2, 175, 7500⟩,
   ⟨"MN", 46.4, 266.7, 180, 8500⟩, ⟨"IA", 42.0, 267.6, 100, 6800⟩,
   ⟨"MO", 38.4, 267.5, 190, 5000⟩, ⟨"AR", 34.8, 268.2, 75, 3200⟩,
   ⟨"ND", 47.5, 259.5, 45, 9000⟩, ⟨"SD", 44.5, 260.1, 35, 7900⟩,
   ⟨"NE", 41.5, 261.5, 75, 6600⟩, ⟨"KS", 38.7, 261.7, 85, 5000⟩,
   ⟨"OK", 35.5, 262.7, 105, 3700⟩, ⟨"TX", 31.1, 260.5, 395, 1800⟩,
   ⟨"LA", 31.2, 268.6, 155, 1500⟩, ⟨"MT", 47.0, 249.5, 50, 7800⟩,
   ⟨"WY", 43.0, 252.0, 45, 7400⟩, ⟨"CO", 39.0, 255.5, 145, 6000⟩,
   ⟨"NM", 34.5, 253.7, 80, 4000⟩, ⟨"AZ", 34.3, 248.6, 105, 1200⟩,
   ⟨"UT", 39.5, 248.8, 85, 5800⟩, ⟨"ID", 44.5, 245.8, 55, 6500⟩,
   ⟨"NV", 39.0, 243.0, 85, 3000⟩, ⟨"WA", 47.5, 239.7, 80, 4800⟩,
   ⟨"OR", 44.0, 237.5, 55, 4500⟩, ⟨"CA", 37.0, 240.0, 280, 2000⟩]

/-- Number of grid latitudes: arange(25.0, 50.125, 0.25). -/
def N_LATS : ℕ := 101

/-- Number of grid longitudes: arange(235.0, 295.125, 0.25). -/
def N_LONS : ℕ := 241

/-- Grid latitude of row i. -/
noncomputable def latVal (i : Fin N_LATS) : ℝ := 25 + (i : ℕ) * 0.25

/-- Grid longitude of column j. -/
noncomputable def lonVal (j : Fin N_LONS) : ℝ := 235 + (j : ℕ) * 0.25

/-- Combined anchor weight, build_weight_grid line 108:
state_weight = eia_bcf × hdd30yr. -/
def anchor_weight (a : Anchor) : ℚ := a.eia_bcf * a.hdd30yr

/-- Gaussian-kernel contribution of one anchor at one grid cell,
build_weight_grid lines 109-112. -/
noncomputable def gauss_contribution (a : Anchor) (sigma_lat sigma_lon : ℚ)
    (i : Fin N_LATS) (j : Fin N_LONS) : ℝ :=
  (anchor_weight a : ℝ) *
    Real.exp (-((latVal i - (a.lat : ℝ)) ^ 2 / (2 * (sigma_lat : ℝ) ^ 2)) -
      ((lonVal j - (a.lon : ℝ)) ^ 2 / (2 * (sigma_lon : ℝ) ^ 2)))

/-- Accumulated (unnormalized) weight grid, build_weight_grid lines 104-113. -/
noncomputable def raw_weights (anchors : List Anchor) (sigma_lat sigma_lon : ℚ)
    (i : Fin N_LATS) (j : Fin N_LONS) : ℝ :=
  (anchors.map (fun a => gauss_contribution a sigma_lat sigma_lon i j)).sum

/-- Total mass of the unnormalized grid (weights.sum()). -/
noncomputable def total_mass (anchors : List Anchor) (sigma_lat sigma_lon : ℚ) : ℝ :=
  ∑ i : Fin N_LATS, ∑ j : Fin N_LONS, raw_weights anchors sigma_lat sigma_lon i j

/-- Normalized grid cell value (weights /= weights.sum(), line 116), as a
real quotient; when the total is zero this Lean quotient is 0 while numpy
produces NaN, which `grid_cell` models. -/
noncomputable def norm_weights (anchors : List Anchor) (sigma_lat sigma_lon : ℚ)
    (i : Fin N_LATS) (j : Fin N_LONS) : ℝ :=
  raw_weights anchors sigma_lat sigma_lon i j / total_mass anchors sigma_lat sigma_lon

/-- Stored grid cell: none models the NaN that numpy's 0.0/0.0 produces when
the total mass is zero; otherwise the normalized real value. -/
noncomputable def grid_cell (anchors : List Anchor) (sigma_lat sigma_lon : ℚ)
    (i : Fin N_LATS) (j : Fin N_LONS) : Option ℝ :=
  if total_mass anchors sigma_lat sigma_lon = 0 then none
  else some (norm_weights anchors sigma_lat sigma_lon i j)

theorem roundHalfEven_bounds (x : ℚ) :
    x - 1/2 ≤ (roundHalfEven x : ℚ) ∧ (roundHalfEven x : ℚ) ≤ x + 1/2 := by
  unfold roundHalfEven
  have h1 : (⌊x⌋ : ℚ) ≤ x := Int.floor_le x
  have h2 : x < (⌊x⌋ : ℚ) + 1 := Int.lt_floor_add_one x
  by_cases hlt : x - (⌊x⌋ : ℚ) < 1/2
  · simp only [hlt, if_true]
    constructor <;> linarith
  · simp only [hlt, if_false]
    by_cases hgt : (1:ℚ)/2 < x - (⌊x⌋ : ℚ)
    · simp only [hgt, if_true]
      push_cast
      constructor <;> linarith
    · simp only [hgt, if_false]
      have heq : x - (⌊x⌋ : ℚ) = 1/2 := le_antisymm (not_lt.mp hgt) (not_lt.mp hlt)
      by_cases hev : ⌊x⌋ % 2 = 0
      · simp only [hev, if_true]
        constructor <;> linarith
      · simp only [hev, if_false]
        push_cast
        constructor <;> linarith

theorem roundHalfEven_le_of_le (x : ℚ) (n : ℤ) (h : x ≤ n) : roundHalfEven x ≤ n := by
  have hb := (roundHalfEven_bounds x).2
  have : (roundHalfEven x : ℚ) ≤ (n : ℚ) + 1/2 := by linarith
  have h2 : (roundHalfEven x : ℚ) < (n : ℚ) + 1 := by linarith
  exact_mod_cast Int.lt_add_one_iff.mp (by exact_mod_cast h2)

theorem le_roundHalfEven_of_le (x : ℚ) (n : ℤ) (h : (n : ℚ) ≤ x) : n ≤ roundHalfEven x := by
  have hb := (roundHalfEven_bounds x).1
  have h2 : (n : ℚ) - 1 < (roundHalfEven x : ℚ) := by linarith
  have h3 : (n : ℤ) - 1 < roundHalfEven x := by exact_mod_cast h2
  omega

/-- C5: the heating degree-day function returns max(65 − tempF, 0) and the
cooling analog returns max(tempF − 65, 0); both are never negative, both are 0
at the base temperature 65°F, tdd 50 = 15 and cdd 75 = 10. -/
theorem tdd_spec :
    (∀ t : ℚ, tdd t = max (65 - t) 0 ∧ forecast_cdd t = max (t - 65) 0) ∧
    (∀ t : ℚ, 0 ≤ tdd t ∧ 0 ≤ forecast_cdd t) ∧
    tdd BASE_TEMP_F = 0 ∧ forecast_cdd BASE_TEMP_F = 0 ∧
    tdd 50 = 15 ∧ forecast_cdd 75 = 10 := by
  refine ⟨fun t => ⟨rfl, rfl⟩, fun t => ⟨le_max_right _ _, le_max_right _ _⟩, ?_, ?_, ?_, ?_⟩
  all_goals norm_num [tdd, forecast_cdd, BASE_TEMP_F]

theorem roundTo2_bounds (q : ℚ) (h1 : -1 ≤ q) (h2 : q ≤ 1) :
    -1 ≤ roundTo2 q ∧ roundTo2 q ≤ 1 := by
  unfold roundTo2
  have hu : roundHalfEven (q * 100) ≤ 100 :=
    roundHalfEven_le_of_le (q * 100) 100 (by push_cast; linarith)
  have hl : (-100 : ℤ) ≤ roundHalfEven (q * 100) :=
    le_roundHalfEven_of_le (q * 100) (-100) (by push_cast; linarith)
  have hu' : (roundHalfEven (q * 100) : ℚ) ≤ 100 := by exact_mod_cast hu
  have hl' : (-100 : ℚ) ≤ (roundHalfEven (q * 100) : ℚ) := by exact_mod_cast hl
  constructor <;> [linarith; linarith]

/-- C1: for every date row, whatever the magnitudes of the master degree-day
value (including 200), power-burn proxy, wind anomaly and volatility score,
the final score is the accumulated bull signal multiplied by
max(0.2, 1 - volatility/100) and clamped, and the emitted composite_score
lies in [-1, 1]. -/
theorem composite_score_clamped :
    (∀ m pb w v : ℚ,
      final_score m pb w v =
        max (-1) (min 1 (bull_signal m pb w * max 0.2 (1 - v / 100))) ∧
      composite_score m pb w v = roundTo2 (final_score m pb w v)) ∧
    (∀ m pb w v : ℚ,
      -1 ≤ composite_score m pb w v ∧ composite_score m pb w v ≤ 1) ∧
    (∀ pb w v : ℚ,
      -1 ≤ composite_score 200 pb w v ∧ composite_score 200 pb w v ≤ 1) := by
  have hdef : ∀ m pb w v : ℚ,
      final_score m pb w v =
        max (-1) (min 1 (bull_signal m pb w * max 0.2 (1 - v / 100))) := by
    intro m pb w v
    unfold final_score confidence_multiplier
    norm_num
  have hbound : ∀ m pb w v : ℚ,
      -1 ≤ composite_score m pb w v ∧ composite_score m pb w v ≤ 1 := by
    intro m pb w v
    have hm1 : (-1 : ℚ) = -1.0 := by norm_num
    have h1 : (-1 : ℚ) ≤ final_score m pb w v := hm1 ▸ le_max_left _ _
    have h2 : final_score m pb w v ≤ 1 :=
      max_le (by norm_num) (le_trans (min_le_left _ _) (by norm_num))
    exact roundTo2_bounds _ h1 h2
  exact ⟨fun m pb w v => ⟨hdef m pb w v, rfl⟩, hbound, fun pb w v => hbound 200 pb w v⟩

theorem drop_duplicates_key_nil : drop_duplicates_key [] = [] := by
  rw [drop_duplicates_key]

theorem drop_duplicates_key_cons (r : DailyRecord) (rs : List DailyRecord) :
    drop_duplicates_key (r :: rs) =
      r :: drop_duplicates_key (rs.filter (fun s => recKey s ≠ recKey r)) := by
  rw [drop_duplicates_key]

theorem mem_of_mem_drop_duplicates_key :
    ∀ (l : List DailyRecord) (r : DailyRecord), r ∈ drop_duplicates_key l → r ∈ l := by
  have H : ∀ (n : ℕ) (l : List DailyRecord), l.length ≤ n →
      ∀ r, r ∈ drop_duplicates_key l → r ∈ l := by
    intro n
    induction n with
    | zero =>
        intro l hl r hr
        cases l with
        | nil => simp [drop_duplicates_key_nil] at hr
        | cons x xs => simp at hl
    | succ n ih =>
        intro l hl r hr
        cases l with
        | nil => simp [drop_duplicates_key_nil] at hr
        | cons x xs =>
            rw [drop_duplicates_key_cons] at hr
            rcases List.mem_cons.mp hr with h | h
            · exact h ▸ List.mem_cons_self x xs
            · have hlen : (xs.filter (fun s => recKey s ≠ recKey x)).length ≤ n :=
                le_trans (List.length_filter_le _ _) (Nat.le_of_succ_le_succ hl)
              have := ih _ hlen r h
              exact List.mem_cons_of_mem x (List.mem_of_mem_filter this)
  exact fun l r hr => H l.length l le_rfl r hr

theorem find?_filter_ne (k : String × String × String) (r : DailyRecord)
    (h : recKey r ≠ k) :
    ∀ xs : List DailyRecord,
      (xs.filter (fun s => recKey s ≠ k)).find? (fun s => recKey s = recKey r) =
        xs.find? (fun s => recKey s = recKey r)
  | [] => rfl
  | x :: xs => by
      by_cases hx : recKey x = k
      · have hxr : ¬ (recKey x = recKey r) := fun hh => h (hh ▸ hx)
        rw [List.filter_cons_of_neg (by simp [hx])]
        rw [List.find?_cons_of_neg _ (by simp [hxr])]
        exact find?_filter_ne k r h xs
      · rw [List.filter_cons_of_pos (by simp [hx])]
        by_cases hxr : recKey x = recKey r
        · rw [List.find?_cons_of_pos _ (by simp [hxr]),
            List.find?_cons_of_pos _ (by simp [hxr])]
        · rw [List.find?_cons_of_neg _ (by simp [hxr]),
            List.find?_cons_of_neg _ (by simp [hxr])]
          exact find?_filter_ne k r h xs

theorem drop_duplicates_key_first_aux (n : ℕ) :
    ∀ l : List DailyRecord, l.length ≤ n → ∀ r, r ∈ drop_duplicates_key l →
      l.find? (fun s => recKey s = recKey r) = some r := by
  induction n with
  | zero =>
      intro l hl r hr
      cases l with
      | nil => simp [drop_duplicates_key_nil] at hr
      | cons x xs => simp at hl
  | succ n ih =>
      intro l hl r hr
      cases l with
      | nil => simp [drop_duplicates_key_nil] at hr
      | cons x xs =>
          rw [drop_duplicates_key_cons] at hr
          rcases List.mem_cons.mp hr with h | h
          · subst h
            exact List.find?_cons_of_pos _ (by simp)
          · have hmem : r ∈ xs.filter (fun s => recKey s ≠ recKey x) :=
              mem_of_mem_drop_duplicates_key _ r h
            have hne : recKey r ≠ recKey x := by
              have := List.of_mem_filter hmem
              simpa using this
            have hlen : (xs.filter (fun s => recKey s ≠ recKey x)).length ≤ n :=
              le_trans (List.length_filter_le _ _) (Nat.le_of_succ_le_succ hl)
            have hfind := ih _ hlen r h
            have hne' : ¬ (recKey x = recKey r) := fun hh => hne hh.symm
            rw [List.find?_cons_of_neg _ (by simp [hne'])]
            rw [← find?_filter_ne (recKey x) r hne xs]
            exact hfind

theorem drop_duplicates_key_nodup_aux (n : ℕ) :
    ∀ l : List DailyRecord, l.length ≤ n →
      ((drop_duplicates_key l).map recKey).Nodup := by
  induction n with
  | zero =>
      intro l hl
      cases l with
      | nil => simp [drop_duplicates_key_nil]
      | cons x xs => simp at hl
  | succ n ih =>
      intro l hl
      cases l with
      | nil => simp [drop_duplicates_key_nil]
      | cons x xs =>
          rw [drop_duplicates_key_cons]
          have hlen : (xs.filter (fun s => recKey s ≠ recKey x)).length ≤ n :=
            le_trans (List.length_filter_le _ _) (Nat.le_of_succ_le_succ hl)
          refine List.nodup_cons.mpr ⟨?_, ih _ hlen⟩
          intro hmem
          rcases List.mem_map.mp hmem with ⟨r, hr, hkey⟩
          have hmem2 : r ∈ xs.filter (fun s => recKey s ≠ recKey x) :=
            mem_of_mem_drop_duplicates_key _ r hr
          have hne : recKey r ≠ recKey x := by
            have := List.of_mem_filter hmem2
            simpa using this
          exact hne hkey

theorem drop_duplicates_key_covers_aux (n : ℕ) :
    ∀ l : List DailyRecord, l.length ≤ n → ∀ r, r ∈ l →
      ∃ s, s ∈ drop_duplicates_key l ∧ recKey s = recKey r := by
  induction n with
  | zero =>
      intro l hl r hr
      cases l with
      | nil => simp at hr
      | cons x xs => simp at hl
  | succ n ih =>
      intro l hl r hr
      cases l with
      | nil => simp at hr
      | cons x xs =>
          rw [drop_duplicates_key_cons]
          by_cases hkey : recKey r = recKey x
          · exact ⟨x, List.mem_cons_self _ _, hkey.symm⟩
          · rcases List.mem_cons.mp hr with h | h
            · exact absurd (h ▸ rfl) hkey
            · have hmem : r ∈ xs.filter (fun s => recKey s ≠ recKey x) :=
                List.mem_filter.mpr ⟨h, by simp [hkey]⟩
              have hlen : (xs.filter (fun s => recKey s ≠ recKey x)).length ≤ n :=
                le_trans (List.length_filter_le _ _) (Nat.le_of_succ_le_succ hl)
              rcases ih _ hlen r hmem with ⟨s, hs, hks⟩
              exact ⟨s, List.mem_cons_of_mem _ hs, hks⟩

theorem drop_duplicates_key_append_absorb_aux (n : ℕ) :
    ∀ l1 l2 : List DailyRecord, l1.length ≤ n →
      (∀ r ∈ l2, ∃ s ∈ l1, recKey s = recKey r) →
      drop_duplicates_key (l1 ++ l2) = drop_duplicates_key l1 := by
  induction n with
  | zero =>
      intro l1 l2 hl h
      cases l1 with
      | nil =>
          cases l2 with
          | nil => rfl
          | cons y ys =>
              rcases h y (List.mem_cons_self _ _) with ⟨s, hs, _⟩
              simp at hs
      | cons x xs => simp at hl
  | succ n ih =>
      intro l1 l2 hl h
      cases l1 with
      | nil =>
          cases l2 with
          | nil => rfl
          | cons y ys =>
              rcases h y (List.mem_cons_self _ _) with ⟨s, hs, _⟩
              simp at hs
      | cons x xs =>
          rw [List.cons_append, drop_duplicates_key_cons, drop_duplicates_key_cons,
            List.filter_append]
          congr 1
          have hlen : (xs.filter (fun s => recKey s ≠ recKey x)).length ≤ n :=
            le_trans (List.length_filter_le _ _) (Nat.le_of_succ_le_succ hl)
          refine ih _ _ hlen ?_
          intro r hr
          have hr2 : r ∈ l2 := List.mem_of_mem_filter hr
          have hrne : recKey r ≠ recKey x := by
            have := List.of_mem_filter hr
            simpa using this
          rcases h r hr2 with ⟨s, hs, hks⟩
          rcases List.mem_cons.mp hs with hsx | hsxs
          · exact absurd (hsx ▸ hks) (fun hh => hrne hh.symm)
          · exact ⟨s, List.mem_filter.mpr ⟨hsxs, by simp [hks ▸ hrne]⟩, hks⟩

theorem drop_duplicates_rowAB : drop_duplicates_key [rowA, rowB] = [rowA] := by
  rw [drop_duplicates_key_cons]
  have hfil : ([rowB].filter (fun s => recKey s ≠ recKey rowA)) = [] := by
    simp [recKey, rowA, rowB]
  rw [hfil, drop_duplicates_key_nil]

/-- C3 counterexample: two rows sharing the identity key (model, run_id,
date); the merge keeps the FIRST-seen row, not the last-seen one that the
claim requires. -/
theorem dedup_last_wins_counterexample :
    recKey rowA = recKey rowB ∧ rowA ≠ rowB ∧
    drop_duplicates_key [rowA, rowB] = [rowA] ∧
    drop_duplicates_key [rowA, rowB] ≠ [rowB] := by
  refine ⟨rfl, ?_, drop_duplicates_rowAB, ?_⟩
  · intro hh
    have := congrArg DailyRecord.tddVal hh
    simp [rowA, rowB] at this
    norm_num at this
  · rw [drop_duplicates_rowAB]
    intro hh
    have := List.head_eq_of_cons_eq hh
    have := congrArg DailyRecord.tddVal this
    simp [rowA, rowB] at this
    norm_num at this

/-- C3 amended: the merge keeps exactly one record per identity key
(model, run_id, date), and when several rows share the same key the record
kept is the FIRST-seen one (pandas drop_duplicates default keep="first"):
every kept record is the first row of the input bearing its key, kept keys
are pairwise distinct, and every input key is represented. -/
theorem dedup_first_wins (l : List DailyRecord) :
    ((drop_duplicates_key l).map recKey).Nodup ∧
    (∀ r, r ∈ drop_duplicates_key l →
      r ∈ l ∧ l.find? (fun s => recKey s = recKey r) = some r) ∧
    (∀ r, r ∈ l → ∃ s, s ∈ drop_duplicates_key l ∧ recKey s = recKey r) :=
  ⟨drop_duplicates_key_nodup_aux l.length l le_rfl,
   fun r hr => ⟨mem_of_mem_drop_duplicates_key l r hr,
     drop_duplicates_key_first_aux l.length l le_rfl r hr⟩,
   fun r hr => drop_duplicates_key_covers_aux l.length l le_rfl r hr⟩

/-- Witness for C3 amended at the concrete two-row input. -/
theorem dedup_first_wins_witness :
    (rowA ∈ drop_duplicates_key [rowA, rowB] ∧
      [rowA, rowB].find? (fun s => recKey s = recKey rowA) = some rowA) ∧
    (rowB ∈ [rowA, rowB] ∧
      ∃ s, s ∈ drop_duplicates_key [rowA, rowB] ∧ recKey s = recKey rowB) := by
  have hmem : rowA ∈ drop_duplicates_key [rowA, rowB] := by
    rw [drop_duplicates_key_cons]
    exact List.mem_cons_self _ _
  have hmemB : rowB ∈ [rowA, rowB] := by simp
  exact ⟨⟨hmem, ((dedup_first_wins [rowA, rowB]).2.1 rowA hmem).2⟩,
    ⟨hmemB, (dedup_first_wins [rowA, rowB]).2.2 rowB hmemB⟩⟩

/-- C4: re-ingesting the same DailyRecord batch twice yields exactly the
same master output (same rows, same count, same order after the
(model, run_id, date) sort) as ingesting it once. -/
theorem merge_idempotent (l : List DailyRecord) :
    merge_output (l ++ l) = merge_output l ∧
    (merge_output (l ++ l)).length = (merge_output l).length := by
  have habs := drop_duplicates_key_append_absorb_aux l.length l l le_rfl
    (fun r hr => ⟨r, hr, rfl⟩)
  unfold merge_output
  rw [habs]
  exact ⟨rfl, rfl⟩

theorem tdd_4846 : tdd 48.46 = 16.54 := by
  unfold tdd BASE_TEMP_F
  rw [show (65 : ℚ) - 48.46 = 16.54 by norm_num]
  rw [max_eq_left (by norm_num : (0 : ℚ) ≤ 16.54)]

/-- C9 counterexample: at a simple mean temperature of 48.46°F the raw
degree-day value is 16.54; the stored tdd column is round(16.54, 2) = 16.54,
not the one-decimal rounding 16.5 the claim requires. -/
theorem stored_row_one_decimal_counterexample :
    (stored_row_ecmwf 48.46 48.46).tddVal = 16.54 ∧
    (stored_row_gfs 48.46 48.46).tddVal = 16.54 ∧
    roundTo1 (tdd 48.46) = 16.5 ∧
    (stored_row_ecmwf 48.46 48.46).tddVal ≠ roundTo1 (tdd 48.46) := by
  have h2 : roundTo2 (tdd 48.46) = 16.54 := by
    rw [tdd_4846]
    unfold roundTo2 roundHalfEven
    norm_num
  have h1 : roundTo1 (tdd 48.46) = 16.5 := by
    rw [tdd_4846]
    unfold roundTo1 roundHalfEven
    norm_num
  refine ⟨h2, h2, h1, ?_⟩
  rw [h1]
  unfold stored_row_ecmwf
  simp only [h2]
  norm_num

/-- C9 amended: every numeric value written to a stored row (mean_temp, tdd,
mean_temp_gw, tdd_gw) is rounded to TWO decimal places for storage (the
stored value is round(raw, 2), an integer multiple of 1/100), identically in
the ECMWF and GFS writers, and the stored degree-day columns are never
negative. -/
theorem stored_row_two_decimals (t g : ℚ) :
    (stored_row_ecmwf t g =
      { mean_temp := roundTo2 t, tddVal := roundTo2 (tdd t),
        mean_temp_gw := roundTo2 g, tdd_gw := roundTo2 (tdd g) } ∧
      stored_row_gfs t g = stored_row_ecmwf t g) ∧
    (∃ a b c d : ℤ,
      (stored_row_ecmwf t g).mean_temp = (a : ℚ) / 100 ∧
      (stored_row_ecmwf t g).tddVal = (b : ℚ) / 100 ∧
      (stored_row_ecmwf t g).mean_temp_gw = (c : ℚ) / 100 ∧
      (stored_row_ecmwf t g).tdd_gw = (d : ℚ) / 100) ∧
    0 ≤ (stored_row_ecmwf t g).tddVal ∧ 0 ≤ (stored_row_ecmwf t g).tdd_gw := by
  have hnn : ∀ x : ℚ, 0 ≤ x → 0 ≤ roundTo2 x := by
    intro x hx
    have h0 : (0 : ℤ) ≤ roundHalfEven (x * 100) :=
      le_roundHalfEven_of_le (x * 100) 0 (by push_cast; positivity)
    have h0' : (0 : ℚ) ≤ (roundHalfEven (x * 100) : ℚ) := by exact_mod_cast h0
    unfold roundTo2
    positivity
  refine ⟨⟨rfl, rfl⟩,
    ⟨roundHalfEven (t * 100), roundHalfEven (tdd t * 100),
     roundHalfEven (g * 100), roundHalfEven (tdd g * 100), rfl, rfl, rfl, rfl⟩,
    hnn _ (le_max_right _ _), hnn _ (le_max_right _ _)⟩

/-- C10: the revision direction is "bullish" exactly when the latest
run-to-run delta is strictly positive, so a latest delta of exactly 0 is
reported as a "bearish" revision ([10, 10] gives delta 0), and an earlier
zero delta is counted as same-signed as a negative latest delta when
extending the streak ([5, 5, 4] gives deltas [0, -1] and a 2nd consecutive
bearish revision). -/
theorem trend_direction_spec :
    (∀ q : ℚ, revision_direction q = "bullish" ↔ 0 < q) ∧
    revision_direction 0 = "bearish" ∧
    (∀ (latest : ℚ) (ds : List ℚ), latest < 0 →
      streak_count latest (0 :: ds) = 1 + streak_count latest ds) ∧
    (∀ vals : List ℚ, 2 ≤ vals.length →
      trendMsg vals =
        ordinal_label (1 + streak_count (lastDelta vals)
            (run_deltas vals).dropLast.reverse) ++
          " consecutive " ++ revision_direction (lastDelta vals) ++
          " revision " ++
          String.join (List.replicate
            (min (1 + streak_count (lastDelta vals)
              (run_deltas vals).dropLast.reverse) 5)
            (if 0 < lastDelta vals then "↑" else "↓"))) ∧
    trendMsg [10, 10] = "1st consecutive bearish revision ↓" ∧
    trendMsg [5, 5, 4] = "2nd consecutive bearish revision ↓↓" := by
  refine ⟨?_, ?_, ?_, ?_, ?_, ?_⟩
  · intro q
    by_cases h : 0 < q
    · simp [revision_direction, h]
    · simp [revision_direction, h]
  · simp [revision_direction]
  · intro latest ds h
    have h1 : decide ((0:ℚ) > 0) = false := by decide
    have h2 : decide (latest > 0) = false :=
      decide_eq_false (not_lt.mpr (le_of_lt h))
    simp [streak_count, h1, h2]
  · intro vals h
    rw [trendMsg, if_neg (Nat.not_lt.mpr h)]
    rfl
  · have h10 : run_deltas [10, 10] = [0] := by unfold run_deltas; norm_num
    unfold trendMsg
    rw [if_neg (by norm_num), h10]
    decide
  · have h54 : run_deltas [5, 5, 4] = [0, -1] := by unfold run_deltas; norm_num
    unfold trendMsg
    rw [if_neg (by norm_num), h54]
    decide

theorem delta_rows_sound (L P : List DailyRecord) :
    ∀ x ∈ delta_rows L P,
      x.tdd_change = x.tdd_latest - x.tdd_prev ∧
      (∃ r ∈ L, r.date = x.date ∧ r.tddVal = x.tdd_latest) ∧
      (∃ p ∈ P, p.date = x.date ∧ p.tddVal = x.tdd_prev) := by
  intro x hx
  unfold delta_rows at hx
  rcases List.mem_filterMap.mp hx with ⟨r, hr, hmap⟩
  cases hfind : P.find? (fun p => p.date = r.date) with
  | none => rw [hfind] at hmap; exact Option.noConfusion hmap
  | some p =>
      rw [hfind] at hmap
      simp only [Option.map_some', Option.some.injEq] at hmap
      subst hmap
      have hpP : p ∈ P := List.mem_of_find?_eq_some hfind
      have hpd : p.date = r.date := by
        have := List.find?_some hfind
        simpa using this
      exact ⟨rfl, ⟨r, hr, rfl, rfl⟩, ⟨p, hpP, hpd, rfl⟩⟩

theorem delta_rows_dates (L P : List DailyRecord) (d : String) :
    d ∈ (delta_rows L P).map DeltaRow.date ↔
      (d ∈ L.map DailyRecord.date ∧ d ∈ P.map DailyRecord.date) := by
  constructor
  · intro hd
    rcases List.mem_map.mp hd with ⟨x, hx, hxd⟩
    rcases delta_rows_sound L P x hx with ⟨_, ⟨r, hr, hrd, _⟩, ⟨p, hp, hpd, _⟩⟩
    exact ⟨List.mem_map.mpr ⟨r, hr, hxd ▸ hrd⟩, List.mem_map.mpr ⟨p, hp, hxd ▸ hpd⟩⟩
  · rintro ⟨hdL, hdP⟩
    rcases List.mem_map.mp hdL with ⟨r, hr, hrd⟩
    rcases List.mem_map.mp hdP with ⟨p, hp, hpd⟩
    have hsome : (P.find? (fun q => q.date = r.date)).isSome = true :=
      List.find?_isSome.mpr ⟨p, hp, by simp [hpd, hrd]⟩
    cases hfind : P.find? (fun q => q.date = r.date) with
    | none => rw [hfind] at hsome; simp at hsome
    | some q =>
        refine List.mem_map.mpr ⟨⟨r.date, r.tddVal, q.tddVal, r.tddVal - q.tddVal⟩, ?_, hrd⟩
        unfold delta_rows
        exact List.mem_filterMap.mpr ⟨r, hr, by rw [hfind]; rfl⟩

theorem sorted_runs_le (df : List DailyRecord) (model : String) :
    (sorted_runs df model).Sorted (fun a b : String => a ≤ b) :=
  List.sorted_insertionSort _ _

theorem mem_sorted_runs (df : List DailyRecord) (model : String) (rid : String) :
    rid ∈ sorted_runs df model ↔ rid ∈ model_run_ids df model :=
  (List.perm_insertionSort _ _).mem_iff

/-- C6: when a model has at least two runs, the day-aligned delta is the
inner join on date of the two greatest run identifiers in sorted order
(latest and previous), computed as value_latest − value_prev per overlapping
date with non-overlapping dates excluded; two runs with zero overlapping
dates give an empty delta list; a model with fewer than two distinct runs
gives no delta, and the trend report labels it "first run". -/
theorem compute_delta_spec :
    (∀ (df : List DailyRecord) (model latest prev : String) (rows : List DeltaRow),
      compute_delta_model df model = some (latest, prev, rows) →
      (∀ d, d ∈ rows.map DeltaRow.date ↔
        (d ∈ (run_rows df model latest).map DailyRecord.date ∧
         d ∈ (run_rows df model prev).map DailyRecord.date)) ∧
      (∀ x ∈ rows,
        x.tdd_change = x.tdd_latest - x.tdd_prev ∧
        (∃ r ∈ run_rows df model latest, r.date = x.date ∧ r.tddVal = x.tdd_latest) ∧
        (∃ p ∈ run_rows df model prev, p.date = x.date ∧ p.tddVal = x.tdd_prev)) ∧
      ((∀ d, d ∈ (run_rows df model latest).map DailyRecord.date →
          d ∉ (run_rows df model prev).map DailyRecord.date) → rows = []) ∧
      (prev ≤ latest ∧ latest ∈ model_run_ids df model ∧ prev ∈ model_run_ids df model ∧
       (∀ rid ∈ model_run_ids df model, rid ≤ latest) ∧
       (∀ rid ∈ model_run_ids df model, rid ≠ latest → rid ≤ prev))) ∧
    (∀ (df : List DailyRecord) (model : String),
      (model_run_ids df model).length < 2 → compute_delta_model df model = none) ∧
    (∀ vals : List ℚ, vals.length < 2 → trendMsg vals = "first run") := by
  refine ⟨?_, ?_, ?_⟩
  · intro df model latest prev rows h
    unfold compute_delta_model at h
    cases hrev : (sorted_runs df model).reverse with
    | nil => rw [hrev] at h; exact Option.noConfusion h
    | cons a tl =>
        cases tl with
        | nil => rw [hrev] at h; exact Option.noConfusion h
        | cons b rest =>
            rw [hrev] at h
            simp only [Option.some.injEq, Prod.mk.injEq] at h
            obtain ⟨ha, hb, hrows⟩ := h
            rw [← ha, ← hb, ← hrows]
            have hruns : sorted_runs df model = rest.reverse ++ [b, a] := by
              have hh := congrArg List.reverse hrev
              rw [List.reverse_reverse] at hh
              rw [hh]
              simp
            have hpair : (rest.reverse ++ [b, a]).Pairwise
                (fun x y : String => x ≤ y) := by
              have hs := sorted_runs_le df model
              rw [hruns] at hs
              exact hs
            rw [List.pairwise_append] at hpair
            obtain ⟨_, hpl, hcross⟩ := hpair
            have hprevle : b ≤ a := by
              rcases List.pairwise_cons.mp hpl with ⟨hp, _⟩
              exact hp a (List.mem_singleton.mpr rfl)
            have hmem : ∀ rid, rid ∈ model_run_ids df model ↔
                rid ∈ rest.reverse ++ [b, a] := by
              intro rid
              rw [← mem_sorted_runs, hruns]
            refine ⟨fun d => delta_rows_dates _ _ d, delta_rows_sound _ _, ?_, ?_⟩
            · intro hdisj
              rw [List.eq_nil_iff_forall_not_mem]
              intro x hx
              have hd : x.date ∈ (delta_rows (run_rows df model a)
                  (run_rows df model b)).map DeltaRow.date :=
                List.mem_map.mpr ⟨x, hx, rfl⟩
              rw [delta_rows_dates] at hd
              exact hdisj x.date hd.1 hd.2
            · refine ⟨hprevle, ?_, ?_, ?_, ?_⟩
              · exact (hmem a).mpr (by simp)
              · exact (hmem b).mpr (by simp)
              · intro rid hrid
                rcases List.mem_append.mp ((hmem rid).mp hrid) with hin | hin
                · exact hcross rid hin a (by simp)
                · rcases List.mem_cons.mp hin with hp | hl
                  · exact hp ▸ hprevle
                  · simp only [List.mem_singleton] at hl
                    exact hl ▸ le_refl _
              · intro rid hrid hne
                rcases List.mem_append.mp ((hmem rid).mp hrid) with hin | hin
                · exact hcross rid hin b (by simp)
                · rcases List.mem_cons.mp hin with hp | hl
                  · exact hp ▸ le_refl _
                  · simp only [List.mem_singleton] at hl
                    exact absurd hl hne
  · intro df model h
    have hlen : (sorted_runs df model).reverse.length < 2 := by
      rw [List.length_reverse]
      unfold sorted_runs
      rw [(List.perm_insertionSort (fun x y : String => x ≤ y)
        (model_run_ids df model)).length_eq]
      exact h
    unfold compute_delta_model
    cases hrev : (sorted_runs df model).reverse with
    | nil => rfl
    | cons a tl =>
        cases tl with
        | nil => rfl
        | cons b rest =>
            rw [hrev] at hlen
            simp only [List.length_cons] at hlen
            omega
  · intro vals h
    rw [trendMsg, if_pos h]

/-- Witness for C10 at concrete inputs: deltas [0, -1] extend a bearish
streak, and [10, 12] is a bullish revision report. -/
theorem trend_direction_spec_witness :
    ((-1 : ℚ) < 0 ∧ streak_count (-1) (0 :: [3]) = 1 + streak_count (-1) [3]) ∧
    (2 ≤ ([10, 12] : List ℚ).length ∧
      trendMsg [10, 12] =
        ordinal_label (1 + streak_count (lastDelta [10, 12])
            (run_deltas [10, 12]).dropLast.reverse) ++
          " consecutive " ++ revision_direction (lastDelta [10, 12]) ++
          " revision " ++
          String.join (List.replicate
            (min (1 + streak_count (lastDelta [10, 12])
              (run_deltas [10, 12]).dropLast.reverse) 5)
            (if 0 < lastDelta [10, 12] then "↑" else "↓"))) :=
  ⟨⟨by norm_num, trend_direction_spec.2.2.1 (-1) [3] (by norm_num)⟩,
   ⟨by norm_num, trend_direction_spec.2.2.2.1 [10, 12] (by norm_num)⟩⟩

theorem compute_delta_drXY :
    compute_delta_model [drX, drY] "X" =
      some ("r2", "r1", [⟨"2026-01-01", 12, 10, 2⟩]) := by
  unfold compute_delta_model sorted_runs model_run_ids model_rows run_rows delta_rows drX drY
  simp [List.insertionSort, List.orderedInsert, List.dedup_cons_of_not_mem]
  rw [if_pos (by decide : (['r', '1'] : List Char) ≤ ['r', '2'])]
  simp [model_rows]
  norm_num

/-- Witness for C6 applying the theorem at two concrete runs of values
10 and 12 (delta +2), a single-run model, and a one-value trend input. -/
theorem compute_delta_spec_witness :
    ((⟨"2026-01-01", 12, 10, 2⟩ : DeltaRow).tdd_change =
       (⟨"2026-01-01", 12, 10, 2⟩ : DeltaRow).tdd_latest -
       (⟨"2026-01-01", 12, 10, 2⟩ : DeltaRow).tdd_prev ∧
     (∃ r ∈ run_rows [drX, drY] "X" "r2",
        r.date = (⟨"2026-01-01", 12, 10, 2⟩ : DeltaRow).date ∧
        r.tddVal = (⟨"2026-01-01", 12, 10, 2⟩ : DeltaRow).tdd_latest) ∧
     (∃ p ∈ run_rows [drX, drY] "X" "r1",
        p.date = (⟨"2026-01-01", 12, 10, 2⟩ : DeltaRow).date ∧
        p.tddVal = (⟨"2026-01-01", 12, 10, 2⟩ : DeltaRow).tdd_prev)) ∧
    compute_delta_model [drX] "X" = none ∧
    trendMsg [5] = "first run" := by
  refine ⟨(compute_delta_spec.1 [drX, drY] "X" "r2" "r1" _ compute_delta_drXY).2.1 _
      (List.mem_singleton.mpr rfl),
    compute_delta_spec.2.1 [drX] "X" ?_,
    compute_delta_spec.2.2 [5] (by norm_num)⟩
  simp [model_run_ids, model_rows, drX]

/-- C7 counterexample: on a date where the AI family contributes no value
while both families have model columns, the disagreement and volatility are
missing (NaN), not 0. -/
theorem disagreement_missing_family_counterexample :
    physics_cols exRows = ["ECMWF_HRES"] ∧
    ai_cols exRows = ["AIFS"] ∧
    ai_mean exRows "2026-01-02" = none ∧
    disagreement_abs exRows "2026-01-02" = none ∧
    volatility_risk_score exRows "2026-01-02" = none ∧
    (none : Option ℚ) ≠ some 0 := by
  have hphys : physics_cols exRows = ["ECMWF_HRES"] := by
    simp [physics_cols, pivot_cols, exRows, PHYSICS_MODELS,
      List.dedup_cons_of_not_mem, List.dedup_cons_of_mem]
  have hai : ai_cols exRows = ["AIFS"] := by
    simp [ai_cols, pivot_cols, exRows, AI_MODELS,
      List.dedup_cons_of_not_mem, List.dedup_cons_of_mem]
  have haimean : ai_mean exRows "2026-01-02" = none := by
    rw [ai_mean, if_pos (by rw [hai]; simp), hai]
    simp [family_mean, pivot_val, exRows]
  refine ⟨hphys, hai, haimean, ?_, ?_, by simp⟩
  · rw [disagreement_abs, if_pos ⟨by rw [hphys]; simp, by rw [hai]; simp⟩, haimean]
    rfl
  · rw [volatility_risk_score, if_pos ⟨by rw [hphys]; simp, by rw [hai]; simp⟩]
    rw [disagreement_abs, if_pos ⟨by rw [hphys]; simp, by rw [hai]; simp⟩, haimean]
    rfl

/-- C7 amended: when a whole model family has no columns in the loaded data,
disagreement and volatility are the constant 0 for every date (no signal,
not an error); but when both families have columns and one of them merely
contributes no value on a given date, disagreement and volatility are
missing (NaN) for that date, and the composite scorer substitutes 0 for the
missing volatility of that date, giving confidence multiplier 1. -/
theorem disagreement_empty_family_spec (rows : List ModelTdd) (d : String) :
    ((physics_cols rows = [] ∨ ai_cols rows = []) →
      disagreement_abs rows d = some 0 ∧
      volatility_risk_score rows d = some 0) ∧
    (physics_cols rows ≠ [] → ai_cols rows ≠ [] →
      (ai_mean rows d = none ∨ physics_mean rows d = none) →
      disagreement_abs rows d = none ∧
      volatility_risk_score rows d = none ∧
      composite_vol_input (volatility_risk_score rows d) = 0 ∧
      confidence_multiplier (composite_vol_input (volatility_risk_score rows d)) = 1) := by
  constructor
  · intro hempty
    have hcond : ¬ (physics_cols rows ≠ [] ∧ ai_cols rows ≠ []) := by
      rcases hempty with h | h
      · exact fun hc => hc.1 h
      · exact fun hc => hc.2 h
    rw [disagreement_abs, if_neg hcond, volatility_risk_score, if_neg hcond]
    exact ⟨rfl, rfl⟩
  · intro hp ha hnone
    have hd : disagreement_abs rows d = none := by
      rw [disagreement_abs, if_pos ⟨hp, ha⟩]
      rcases hnone with h | h
      · rw [h]
        rfl
      · cases hm : ai_mean rows d with
        | none => rfl
        | some a => rw [h]; rfl
    have hv : volatility_risk_score rows d = none := by
      rw [volatility_risk_score, if_pos ⟨hp, ha⟩, hd]
      rfl
    have hvi : composite_vol_input (volatility_risk_score rows d) = 0 := by
      rw [hv]
      rfl
    refine ⟨hd, hv, hvi, ?_⟩
    rw [hvi]
    unfold confidence_multiplier
    norm_num

/-- Witness for C7 amended at the two concrete datasets. -/
theorem disagreement_empty_family_spec_witness :
    (disagreement_abs exRowsPhys "2026-01-01" = some 0 ∧
     volatility_risk_score exRowsPhys "2026-01-01" = some 0) ∧
    (disagreement_abs exRows "2026-01-02" = none ∧
     volatility_risk_score exRows "2026-01-02" = none ∧
     composite_vol_input (volatility_risk_score exRows "2026-01-02") = 0 ∧
     confidence_multiplier
       (composite_vol_input (volatility_risk_score exRows "2026-01-02")) = 1) := by
  have hai0 : ai_cols exRowsPhys = [] := by
    simp [ai_cols, pivot_cols, exRowsPhys, AI_MODELS]
  have hphys : physics_cols exRows ≠ [] := by
    simp [physics_cols, pivot_cols, exRows, PHYSICS_MODELS,
      List.dedup_cons_of_not_mem, List.dedup_cons_of_mem]
  have hai : ai_cols exRows ≠ [] := by
    simp [ai_cols, pivot_cols, exRows, AI_MODELS,
      List.dedup_cons_of_not_mem, List.dedup_cons_of_mem]
  have haimean : ai_mean exRows "2026-01-02" = none := by
    rw [ai_mean, if_pos hai]
    have hac : ai_cols exRows = ["AIFS"] := by
      simp [ai_cols, pivot_cols, exRows, AI_MODELS,
        List.dedup_cons_of_not_mem, List.dedup_cons_of_mem]
    rw [hac]
    simp [family_mean, pivot_val, exRows]
  exact ⟨(disagreement_empty_family_spec exRowsPhys "2026-01-01").1 (Or.inr hai0),
    (disagreement_empty_family_spec exRows "2026-01-02").2 hphys hai (Or.inl haimean)⟩

theorem raw_weights_pos (anchors : List Anchor) (sigma_lat sigma_lon : ℚ)
    (hne : anchors ≠ [])
    (hpos : ∀ a ∈ anchors, 0 < a.eia_bcf ∧ 0 < a.hdd30yr)
    (i : Fin N_LATS) (j : Fin N_LONS) :
    0 < raw_weights anchors sigma_lat sigma_lon i j := by
  unfold raw_weights
  apply List.sum_pos
  · intro x hx
    rcases List.mem_map.mp hx with ⟨a, ha, hax⟩
    rw [← hax]
    unfold gauss_contribution
    apply mul_pos
    · have h := hpos a ha
      have : (0 : ℚ) < anchor_weight a := mul_pos h.1 h.2
      exact_mod_cast this
    · exact Real.exp_pos _
  · simp [hne]

theorem total_mass_pos (anchors : List Anchor) (sigma_lat sigma_lon : ℚ)
    (hne : anchors ≠ [])
    (hpos : ∀ a ∈ anchors, 0 < a.eia_bcf ∧ 0 < a.hdd30yr) :
    0 < total_mass anchors sigma_lat sigma_lon := by
  unfold total_mass
  apply Finset.sum_pos
  · intro i _
    apply Finset.sum_pos
    · intro j _
      exact raw_weights_pos anchors sigma_lat sigma_lon hne hpos i j
    · exact Finset.univ_nonempty_iff.mpr ⟨⟨0, by norm_num [N_LONS]⟩⟩
  · exact Finset.univ_nonempty_iff.mpr ⟨⟨0, by norm_num [N_LATS]⟩⟩

/-- C2: for every non-empty anchor table (with positive demand and
sensitivity magnitudes) and positive sigmas, every cell of the built weight
grid is non-negative and the grid sums exactly to 1 after normalization,
and every stored cell is the normalized real value (the normalizing total
is positive, so no NaN arises). -/
theorem build_weight_grid_normalized (anchors : List Anchor) (sigma_lat sigma_lon : ℚ)
    (hne : anchors ≠ [])
    (hpos : ∀ a ∈ anchors, 0 < a.eia_bcf ∧ 0 < a.hdd30yr)
    (_hsl : 0 < sigma_lat) (_hso : 0 < sigma_lon) :
    (∀ i j, 0 ≤ norm_weights anchors sigma_lat sigma_lon i j) ∧
    (∑ i : Fin N_LATS, ∑ j : Fin N_LONS,
      norm_weights anchors sigma_lat sigma_lon i j) = 1 ∧
    (∀ i j, grid_cell anchors sigma_lat sigma_lon i j =
      some (norm_weights anchors sigma_lat sigma_lon i j)) := by
  have htot := total_mass_pos anchors sigma_lat sigma_lon hne hpos
  refine ⟨?_, ?_, ?_⟩
  · intro i j
    exact div_nonneg
      (le_of_lt (raw_weights_pos anchors sigma_lat sigma_lon hne hpos i j))
      (le_of_lt htot)
  · unfold norm_weights
    have hinner : ∀ i : Fin N_LATS,
        (∑ j : Fin N_LONS,
          raw_weights anchors sigma_lat sigma_lon i j /
            total_mass anchors sigma_lat sigma_lon) =
        (∑ j : Fin N_LONS, raw_weights anchors sigma_lat sigma_lon i j) /
          total_mass anchors sigma_lat sigma_lon := by
      intro i
      rw [← Finset.sum_div]
    rw [Finset.sum_congr rfl (fun i _ => hinner i), ← Finset.sum_div]
    exact div_self (ne_of_gt htot)
  · intro i j
    rw [grid_cell, if_neg (ne_of_gt htot)]

/-- Witness for C2 at the real STATE_DATA anchor table with the default
sigmas 2.5 and 3.0. -/
theorem build_weight_grid_normalized_witness :
    (STATE_DATA ≠ [] ∧ (0 : ℚ) < 2.5 ∧ (0 : ℚ) < 3) ∧
    ((∀ i j, 0 ≤ norm_weights STATE_DATA 2.5 3 i j) ∧
     (∑ i : Fin N_LATS, ∑ j : Fin N_LONS, norm_weights STATE_DATA 2.5 3 i j) = 1 ∧
     (∀ i j, grid_cell STATE_DATA 2.5 3 i j =
       some (norm_weights STATE_DATA 2.5 3 i j))) := by
  have hne : STATE_DATA ≠ [] := by simp [STATE_DATA]
  have hpos : ∀ a ∈ STATE_DATA, 0 < a.eia_bcf ∧ 0 < a.hdd30yr := by
    intro a ha
    fin_cases ha <;> constructor <;> norm_num
  exact ⟨⟨hne, by norm_num, by norm_num⟩,
    build_weight_grid_normalized STATE_DATA 2.5 3 hne hpos
      (by norm_num) (by norm_num)⟩

/-- C8 counterexample: with an empty anchor table the stored grid cell is
the NaN of the 0.0/0.0 normalization (modelled none), not the value 0 the
claim describes. -/
theorem empty_anchor_grid_counterexample :
    grid_cell [] 2.5 3 ⟨0, by norm_num [N_LATS]⟩ ⟨0, by norm_num [N_LONS]⟩ = none ∧
    (none : Option ℝ) ≠ some (0 : ℝ) := by
  have hraw : ∀ i j, raw_weights [] 2.5 3 i j = 0 := by
    intro i j
    simp [raw_weights]
  have htot : total_mass [] 2.5 3 = 0 := by
    unfold total_mass
    simp [hraw]
  exact ⟨by rw [grid_cell, if_pos htot], by simp⟩

/-- C8 amended: with an empty anchor table the accumulated grid is all-zero
and its total mass is zero, so the final normalization divides zero by zero
and every stored cell is NaN (modelled none) — a detectable degenerate
configuration state, not a silent skip, but not the all-zero stored grid
the claim describes. -/
theorem empty_anchor_grid_spec (sigma_lat sigma_lon : ℚ) :
    (∀ i j, raw_weights [] sigma_lat sigma_lon i j = 0) ∧
    total_mass [] sigma_lat sigma_lon = 0 ∧
    (∀ i j, grid_cell [] sigma_lat sigma_lon i j = none) := by
  have hraw : ∀ i j, raw_weights [] sigma_lat sigma_lon i j = 0 := by
    intro i j
    simp [raw_weights]
  have htot : total_mass [] sigma_lat sigma_lon = 0 := by
    unfold total_mass
    simp [hraw]
  exact ⟨hraw, htot, fun i j => by rw [grid_cell, if_pos htot]⟩

end WeatherDD
